import Mathlib

/-!
Verification of the `othello_rust` binding layer (`src/lib.rs`).

The repository's single visible source file is a boundary wrapper around an
Othello engine (crates `othello_game` and `othello_ai`) whose sources are not
part of the visible tree.  The wrapper's own functions — the move codec
`move_to_u8` / `u8_to_move`, the session methods `add_stone`, `ai_move` and
`is_game_over` — are embedded here directly from the source.  The engine
operations they call (`valid_moves`, `apply`, the start position) are modelled
from the specification (sections 3, 4.1–4.3).  The two AI strategies are kept
as parameters of `aiMove`: the wrapper only dispatches to them, and the claims
about `ai_move` concern that dispatch and the handling of whatever the
strategy returns.
-/

/-- Stone colour, from the engine's `Colour` enum (spec section 3). -/
inductive Colour : Type
  | Black : Colour
  | White : Colour
deriving DecidableEq, Repr

/-- Modelled from the spec: `Colour::opponent`, a total involutive swap
(Black into White and back); the engine crate's source is not visible. -/
def Colour.opponent : Colour → Colour
  | Colour.Black => Colour.White
  | Colour.White => Colour.Black

/-- Board cell coordinates use the engine's signed `Pos` type, modelled as `Int`
(the decoder in `lib.rs` checks `row >= 0`, so `Pos` is signed). -/
abbrev Pos := Int

/-- The engine's `Move` struct: acting player plus 0-indexed row and column. -/
structure Move : Type where
  player : Colour
  row : Pos
  col : Pos
deriving DecidableEq, Repr

/-- Modelled from the spec: the engine's `Board`, an 8 by 8 mapping from
(row, col) to an optional stone colour, stored row-major; the engine crate's
source is not visible. -/
def Board : Type := List (Option Colour)

/-- Bounds test for a coordinate pair: both components in `[0, 8)`. -/
def inBoard (r c : Int) : Bool :=
  decide (0 ≤ r) && decide (r < 8) && decide (0 ≤ c) && decide (c < 8)

/-- Modelled from the spec: `Board::get`, the pure cell query; off-board
coordinates read as empty (the capture scan treats running off the board and
hitting an empty cell identically, spec section 4.1). -/
def Board.get (b : Board) (r c : Int) : Option Colour :=
  if inBoard r c then List.getD b (r * 8 + c).toNat none else none

/-- Modelled from the spec: writing one cell of a board (used for placement
and for flips, spec section 4.1). -/
def Board.setCell (b : Board) (r c : Int) (colour : Colour) : Board :=
  List.set b (r * 8 + c).toNat (some colour)

/-- The eight scan directions of the capture engine (spec section 4.1). -/
def directions : List (Int × Int) :=
  [(-1, -1), (-1, 0), (-1, 1), (0, -1), (0, 1), (1, -1), (1, 0), (1, 1)]

/-- Modelled from the spec: one directional walk of the capture scan.  Starting
one step from `(r, c)` in direction `(dr, dc)`, accumulate cells while they
hold the opponent's colour; return the accumulated cells when a cell of the
scanning colour closes the run, and nothing when the walk reaches an empty
cell or leaves the board.  Fuel 8 suffices: any ray leaves the 8 by 8 board
within 8 steps. -/
def scanDir (b : Board) (colour : Colour) (dr dc : Int) :
    Nat → Int → Int → List (Int × Int) → Option (List (Int × Int))
  | 0, _, _, _ => none
  | fuel + 1, r, c, acc =>
    let r2 := r + dr
    let c2 := c + dc
    match Board.get b r2 c2 with
    | none => none
    | some col =>
      if col = colour then some acc
      else scanDir b colour dr dc fuel r2 c2 ((r2, c2) :: acc)

/-- Modelled from the spec: `linesToCapture(board, colour, row, col)` — the
union over the eight directions of the cells each direction captures; empty
when the starting cell is occupied or off the board (spec section 4.1). -/
def linesToCapture (b : Board) (colour : Colour) (row col : Int) : List (Int × Int) :=
  if inBoard row col && (Board.get b row col).isNone then
    List.flatten (List.map (fun d => (scanDir b colour d.1 d.2 8 row col []).getD []) directions)
  else []

/-- The engine's `GameState`: a board snapshot plus whose turn is next
(`DefaultGame` in `lib.rs`). -/
structure Game : Type where
  board : Board
  next_turn : Colour

/-- Modelled from the spec: `valid_moves(colour)` — every cell that is empty
and has a non-empty capture set, enumerated in row-major order
(spec section 4.2); the engine crate's source is not visible. -/
def validMoves (g : Game) (colour : Colour) : List Move :=
  (List.range 8).flatMap fun r =>
    (List.range 8).filterMap fun c =>
      if (linesToCapture g.board colour (r : Int) (c : Int)).isEmpty then none
      else some ({ player := colour, row := (r : Int), col := (c : Int) } : Move)

/-- Modelled from the spec: `GameState::apply` — place the mover's stone, flip
the captured cells, hand the turn to the opponent (spec section 4.3). -/
def Game.apply (g : Game) (m : Move) : Game :=
  let caps := linesToCapture g.board m.player m.row m.col
  let placed := Board.setCell g.board m.row m.col m.player
  let flipped := List.foldl (fun b rc => Board.setCell b rc.1 rc.2 m.player) placed caps
  { board := flipped, next_turn := m.player.opponent }

/-- Modelled from the spec: the empty board, all 64 cells unoccupied. -/
def emptyBoard : Board := List.replicate 64 none

/-- Modelled from the spec: the canonical start position — four centre stones,
arranged so that Black's opening move at row 2, column 3 flips one white stone
(spec sections 3 and 8). -/
def initialBoard : Board :=
  Board.setCell
    (Board.setCell
      (Board.setCell (Board.setCell emptyBoard 3 3 Colour.White) 3 4 Colour.Black)
      4 3 Colour.Black)
    4 4 Colour.White

/-- Modelled from the spec: `DefaultGame::new()` — start position, Black to
move. -/
def initialGame : Game := { board := initialBoard, next_turn := Colour.Black }

/-- The `PyOthelloGame` session: one game state plus the append-only history of
encoded moves (`lib.rs` lines 36–42).  History entries are the compact codes. -/
structure Session : Type where
  game : Game
  moveHistory : List Nat

/-- `PyOthelloGame::new` (`lib.rs` lines 46–52). -/
def newSession : Session := { game := initialGame, moveHistory := [] }

/-- `move_to_u8` (`lib.rs` lines 9–14): `None` encodes as 0, a placement as
`row * 8 + col + 1`; the Rust `as u8` cast truncates modulo 256. -/
def moveToU8 (mov : Option Move) : Nat :=
  match mov with
  | some m => ((m.row * 8 + m.col + 1) % 256).toNat
  | none => 0

/-- `u8_to_move` (`lib.rs` lines 18–34): 0 decodes to a pass, 1–64 to the move
with `row = (code - 1) / 8`, `col = (code - 1) % 8` guarded by a defensive
bounds check, anything larger is rejected. -/
def u8ToMove (moveRepr : Nat) (player : Colour) : Except String (Option Move) :=
  if moveRepr = 0 then Except.ok none
  else if moveRepr ≤ 64 then
    let index := moveRepr - 1
    let row : Pos := (index / 8 : Nat)
    let col : Pos := (index % 8 : Nat)
    if 0 ≤ row ∧ row < 8 ∧ 0 ≤ col ∧ col < 8 then
      Except.ok (some { player := player, row := row, col := col })
    else Except.error "Invalid move number"
  else Except.error "Move must be between 0 and 64"

/-- `PyOthelloGame::add_stone` (`lib.rs` lines 63–97).  The Rust method
mutates `&mut self` and returns `PyResult<bool>`; here the updated session is
returned alongside the result, and an error leaves the session exactly as it
was (no mutation precedes either error or rejection in the source). -/
def addStone (st : Session) (moveRepr : Nat) : Except String Bool × Session :=
  let currentPlayer := st.game.next_turn
  let vms := validMoves st.game currentPlayer
  match u8ToMove moveRepr currentPlayer with
  | Except.error e => (Except.error e, st)
  | Except.ok (some potentialMove) =>
    if potentialMove ∈ vms then
      (Except.ok true,
        { game := st.game.apply potentialMove, moveHistory := st.moveHistory ++ [moveRepr] })
    else (Except.ok false, st)
  | Except.ok none =>
    if vms.isEmpty then
      (Except.ok true,
        { game := { st.game with next_turn := currentPlayer.opponent },
          moveHistory := st.moveHistory ++ [0] })
    else (Except.ok false, st)

/-- `PyOthelloGame::ai_move` (`lib.rs` lines 103–156).  The two strategies of
the unseen `othello_ai` crate enter as parameters: `alphaBetaChoose d`
stands for `AlphaBetaAI { max_depth: d }.choose_move` and `randChoose` for
`RandomAI {}.choose_move`; the wrapper only dispatches on `strength` and
checks the returned move.  As with `addStone`, the session is threaded
through, and both error branches return it untouched (the source mutates
nothing before erroring). -/
def aiMove (alphaBetaChoose : Nat → Game → Option Move) (randChoose : Game → Option Move)
    (strength : Option Int) (st : Session) : Except String (Option Nat) × Session :=
  let currentPlayer := st.game.next_turn
  let vms := validMoves st.game currentPlayer
  if vms.isEmpty then
    let g1 : Game := { st.game with next_turn := currentPlayer.opponent }
    if (validMoves g1 g1.next_turn).isEmpty then
      (Except.ok none, { game := g1, moveHistory := st.moveHistory ++ [0] })
    else
      (Except.ok (some 0), { game := g1, moveHistory := st.moveHistory ++ [0] })
  else
    let chosenMoveStruct : Option Move :=
      match strength with
      | some s => if 0 < s then alphaBetaChoose s.toNat st.game else randChoose st.game
      | none => randChoose st.game
    match chosenMoveStruct with
    | some mov =>
      if mov ∈ vms then
        (Except.ok (some (moveToU8 (some mov))),
          { game := st.game.apply mov, moveHistory := st.moveHistory ++ [moveToU8 (some mov)] })
      else (Except.error "AI chose an invalid move", st)
    | none => (Except.error "AI failed to choose a move despite available options", st)

/-- The strategy-selection expression of `ai_move` (`lib.rs` lines 124–136) in
isolation: a present positive `strength` selects alpha-beta at that depth,
zero, negative or absent selects random. -/
def dispatch (alphaBetaChoose : Nat → Game → Option Move) (randChoose : Game → Option Move)
    (strength : Option Int) (g : Game) : Option Move :=
  match strength with
  | some s => if 0 < s then alphaBetaChoose s.toNat g else randChoose g
  | none => randChoose g

/-- The tail of `ai_move` (`lib.rs` lines 138–155) in isolation: how a chosen
move (or the absence of one) is validated, applied and recorded. -/
def handleChosen (chosen : Option Move) (st : Session) : Except String (Option Nat) × Session :=
  match chosen with
  | some mov =>
    if mov ∈ validMoves st.game st.game.next_turn then
      (Except.ok (some (moveToU8 (some mov))),
        { game := st.game.apply mov, moveHistory := st.moveHistory ++ [moveToU8 (some mov)] })
    else (Except.error "AI chose an invalid move", st)
  | none => (Except.error "AI failed to choose a move despite available options", st)

/-- `PyOthelloGame::is_game_over` (`lib.rs` lines 197–206): false when the
current player can move, otherwise true exactly when the opponent cannot move
either; recomputed from the state on every call. -/
def isGameOver (st : Session) : Bool :=
  let currentPlayerHasMoves := !(validMoves st.game st.game.next_turn).isEmpty
  if currentPlayerHasMoves then false
  else
    let opponentHasMoves := !(validMoves st.game st.game.next_turn.opponent).isEmpty
    !opponentHasMoves

/-- Concrete session used as a witness: the empty board has no legal move for
either colour, so it is a terminal position with Black to act. -/
def emptySession : Session :=
  { game := { board := emptyBoard, next_turn := Colour.Black }, moveHistory := [] }

/-- Concrete session used as a witness: a white stone on (0,0) and a black
stone on (0,1) leave Black without a legal move while White can play (0,2). -/
def blackStuckSession : Session :=
  { game :=
      { board := Board.setCell (Board.setCell emptyBoard 0 0 Colour.White) 0 1 Colour.Black,
        next_turn := Colour.Black },
    moveHistory := [] }

/-- Constant strategy returning the standard opening placement; used to
instantiate the strategy parameters of `aiMove` in witness statements. -/
def chooseOpening : Nat → Game → Option Move :=
  fun _ _ => some { player := Colour.Black, row := 2, col := 3 }

/-- Constant strategy returning the corner cell (illegal at the start
position); used to instantiate `aiMove` in witness statements. -/
def chooseCorner : Nat → Game → Option Move :=
  fun _ _ => some { player := Colour.Black, row := 0, col := 0 }

/-- Strategy that never returns a move; used to instantiate `aiMove` in
witness statements. -/
def chooseNone : Game → Option Move := fun _ => none

/-! Helper lemmas shared by the claim theorems. -/

/-- The colour swap is involutive. -/
theorem Colour.opponent_opponent (c : Colour) : c.opponent.opponent = c := by
  cases c <;> rfl

/-- `validMoves` reads only the board, so replacing `next_turn` does not change
it. -/
theorem validMoves_update_turn (g : Game) (x c : Colour) :
    validMoves { g with next_turn := x } c = validMoves g c := rfl

/-- Decoding a code in `1..=64` succeeds with the row-major cell. -/
theorem u8ToMove_ok_decode (c : Nat) (p : Colour) (h1 : 1 ≤ c) (h2 : c ≤ 64) :
    u8ToMove c p =
      Except.ok (some { player := p, row := ((c - 1) / 8 : Nat), col := ((c - 1) % 8 : Nat) }) := by
  have hc0 : ¬ c = 0 := by omega
  have hrow : ((0 : Int) ≤ ((c - 1) / 8 : Nat) ∧ (((c - 1) / 8 : Nat) : Int) < 8 ∧
      (0 : Int) ≤ ((c - 1) % 8 : Nat) ∧ (((c - 1) % 8 : Nat) : Int) < 8) := by
    refine ⟨Int.ofNat_nonneg _, ?_, Int.ofNat_nonneg _, ?_⟩ <;>
      · rw [show ((8 : Int)) = ((8 : Nat) : Int) from rfl, Int.ofNat_lt]
        omega
  simp only [u8ToMove]
  rw [if_neg hc0, if_pos h2, if_pos hrow]

/-- Re-encoding the decoded cell of a code in `1..=64` gives the code back. -/
theorem moveToU8_decode (c : Nat) (p : Colour) (h1 : 1 ≤ c) (h2 : c ≤ 64) :
    moveToU8 (some { player := p, row := ((c - 1) / 8 : Nat), col := ((c - 1) % 8 : Nat) }) = c := by
  show (((((c - 1) / 8 : Nat) : Int) * 8 + (((c - 1) % 8 : Nat) : Int) + 1) % 256).toNat = c
  omega

/-- Claim C1: for every code in `0..=64` and any acting colour, decoding
succeeds (0 to a pass, `c` in `1..=64` to row `(c-1)/8`, column `(c-1) % 8`)
and re-encoding the decoded move returns the code; every code above 64 is
rejected with an invalid-argument error. -/
theorem u8ToMove_moveToU8_roundtrip (c : Nat) (player : Colour) :
    (c = 0 → u8ToMove c player = Except.ok none ∧ moveToU8 none = 0) ∧
    (1 ≤ c → c ≤ 64 →
      u8ToMove c player =
        Except.ok (some { player := player, row := ((c - 1) / 8 : Nat), col := ((c - 1) % 8 : Nat) }) ∧
      moveToU8 (some { player := player, row := ((c - 1) / 8 : Nat), col := ((c - 1) % 8 : Nat) }) = c) ∧
    (64 < c → u8ToMove c player = Except.error "Move must be between 0 and 64") := by
  refine ⟨fun h => ?_, fun h1 h2 => ⟨u8ToMove_ok_decode c player h1 h2, moveToU8_decode c player h1 h2⟩, fun h => ?_⟩
  · subst h
    exact ⟨rfl, rfl⟩
  · simp only [u8ToMove]
    rw [if_neg (by omega), if_neg (by omega)]

/-- Witness for C1 at code 20 and code 100. -/
theorem u8ToMove_moveToU8_roundtrip_witness :
    (u8ToMove 20 Colour.Black =
      Except.ok (some { player := Colour.Black, row := ((20 - 1) / 8 : Nat), col := ((20 - 1) % 8 : Nat) }) ∧
     moveToU8 (some { player := Colour.Black, row := ((20 - 1) / 8 : Nat), col := ((20 - 1) % 8 : Nat) }) = 20) ∧
    u8ToMove 100 Colour.White = Except.error "Move must be between 0 and 64" :=
  ⟨(u8ToMove_moveToU8_roundtrip 20 Colour.Black).2.1 (by omega) (by omega),
   (u8ToMove_moveToU8_roundtrip 100 Colour.White).2.2 (by omega)⟩

/-- Claim C7: for every code in `1..=64` the decoded row and column are inside
the board, so the decoder's defensive out-of-range error branch is never
taken and decoding yields a move. -/
theorem u8ToMove_in_range_never_errors (c : Nat) (p : Colour) (h1 : 1 ≤ c) (h2 : c ≤ 64) :
    ∃ m : Move, u8ToMove c p = Except.ok (some m) ∧
      0 ≤ m.row ∧ m.row < 8 ∧ 0 ≤ m.col ∧ m.col < 8 := by
  refine ⟨{ player := p, row := ((c - 1) / 8 : Nat), col := ((c - 1) % 8 : Nat) },
    u8ToMove_ok_decode c p h1 h2, Int.ofNat_nonneg _, ?_, Int.ofNat_nonneg _, ?_⟩ <;>
    · rw [show ((8 : Int)) = ((8 : Nat) : Int) from rfl, Int.ofNat_lt]
      omega

/-- Witness for C7 at code 64. -/
theorem u8ToMove_in_range_never_errors_witness :
    ∃ m : Move, u8ToMove 64 Colour.White = Except.ok (some m) ∧
      0 ≤ m.row ∧ m.row < 8 ∧ 0 ≤ m.col ∧ m.col < 8 :=
  u8ToMove_in_range_never_errors 64 Colour.White (by omega) (by omega)

/-- Claim C2: a pass request (`add_stone 0`) succeeds exactly when the current
player has no legal move; success flips the turn, keeps the board, appends 0
to the history and returns true, while a rejected pass returns false and
changes nothing. -/
theorem addStone_pass_spec (st : Session) :
    (validMoves st.game st.game.next_turn = [] →
      addStone st 0 =
        (Except.ok true,
          { game := { st.game with next_turn := st.game.next_turn.opponent },
            moveHistory := st.moveHistory ++ [0] })) ∧
    (validMoves st.game st.game.next_turn ≠ [] →
      addStone st 0 = (Except.ok false, st)) := by
  constructor <;> intro h
  · simp [addStone, u8ToMove, h]
  · simp [addStone, u8ToMove, h]

/-- Witness for C2: on the moveless empty board a pass is accepted, and at the
start position (Black has moves) a pass is rejected without mutation. -/
theorem addStone_pass_spec_witness :
    addStone emptySession 0 =
      (Except.ok true,
        { game := { emptySession.game with next_turn := emptySession.game.next_turn.opponent },
          moveHistory := emptySession.moveHistory ++ [0] }) ∧
    addStone newSession 0 = (Except.ok false, newSession) :=
  ⟨(addStone_pass_spec emptySession).1 (by decide),
   (addStone_pass_spec newSession).2 (by decide)⟩

/-- Claim C3: a placement request whose decoded move is illegal returns false
and leaves game and history untouched; a legal one is applied, its code (and
exactly that code) is appended, and true is returned. -/
theorem addStone_placement_spec (st : Session) (c : Nat) (m : Move)
    (hdec : u8ToMove c st.game.next_turn = Except.ok (some m)) :
    (m ∉ validMoves st.game st.game.next_turn →
      addStone st c = (Except.ok false, st)) ∧
    (m ∈ validMoves st.game st.game.next_turn →
      addStone st c =
        (Except.ok true,
          { game := st.game.apply m, moveHistory := st.moveHistory ++ [c] })) := by
  constructor <;> intro h
  · simp [addStone, hdec, h]
  · simp [addStone, hdec, h]

/-- Witness for C3: at the start position, code 1 decodes to the illegal
corner move and is rejected; code 20 decodes to the legal opening move and is
applied and recorded. -/
theorem addStone_placement_spec_witness :
    addStone newSession 1 = (Except.ok false, newSession) ∧
    addStone newSession 20 =
      (Except.ok true,
        { game := newSession.game.apply { player := Colour.Black, row := 2, col := 3 },
          moveHistory := newSession.moveHistory ++ [20] }) :=
  ⟨(addStone_placement_spec newSession 1 { player := Colour.Black, row := 0, col := 0 }
      (by rfl)).1 (by decide),
   (addStone_placement_spec newSession 20 { player := Colour.Black, row := 2, col := 3 }
      (by rfl)).2 (by decide)⟩

/-- Claim C4: `is_game_over` is true exactly when neither the player to move
nor the opponent has a legal move; it is a pure function of the current
session state (no stored flag, no mutation). -/
theorem isGameOver_iff_no_moves (st : Session) :
    isGameOver st = true ↔
      (validMoves st.game st.game.next_turn = [] ∧
       validMoves st.game st.game.next_turn.opponent = []) := by
  by_cases h1 : validMoves st.game st.game.next_turn = [] <;>
    by_cases h2 : validMoves st.game st.game.next_turn.opponent = [] <;>
      simp [isGameOver, h1, h2]

/-- Witness for C4: the empty board is terminal. -/
theorem isGameOver_iff_no_moves_witness : isGameOver emptySession = true :=
  (isGameOver_iff_no_moves emptySession).mpr ⟨by decide, by decide⟩

/-- When the current player has no legal move, `ai_move` performs the forced
pass: it flips the turn, records the pass code, and reports `none` when the
opponent is also stuck and `some 0` otherwise. -/
theorem aiMove_pass_branch (ab : Nat → Game → Option Move) (r : Game → Option Move)
    (strength : Option Int) (st : Session)
    (h : validMoves st.game st.game.next_turn = []) :
    aiMove ab r strength st =
      ((if validMoves st.game st.game.next_turn.opponent = [] then Except.ok none
        else Except.ok (some 0)),
        { game := { st.game with next_turn := st.game.next_turn.opponent },
          moveHistory := st.moveHistory ++ [0] }) := by
  by_cases h2 : validMoves st.game st.game.next_turn.opponent = [] <;>
    simp [aiMove, h, validMoves_update_turn, h2]

/-- When the current player does have a legal move, `ai_move` is the
handling of whatever move the dispatched strategy returns. -/
theorem aiMove_eq_handleChosen (ab : Nat → Game → Option Move) (r : Game → Option Move)
    (strength : Option Int) (st : Session)
    (h : validMoves st.game st.game.next_turn ≠ []) :
    aiMove ab r strength st = handleChosen (dispatch ab r strength st.game) st := by
  cases strength with
  | none => simp [aiMove, handleChosen, dispatch, h]
  | some s =>
    by_cases hs : (0 : Int) < s <;> simp [aiMove, handleChosen, dispatch, h, hs]

/-- Claim C5: with the current player stuck, `ai_move` never consults a
strategy (the result is the same for every strategy pair): it flips the turn,
appends the pass code 0, and answers `none` when the opponent is stuck too
and `some 0` when the opponent can move. -/
theorem aiMove_forced_pass_spec (ab : Nat → Game → Option Move) (r : Game → Option Move)
    (strength : Option Int) (st : Session)
    (h : validMoves st.game st.game.next_turn = []) :
    (validMoves st.game st.game.next_turn.opponent = [] →
      aiMove ab r strength st =
        (Except.ok none,
          { game := { st.game with next_turn := st.game.next_turn.opponent },
            moveHistory := st.moveHistory ++ [0] })) ∧
    (validMoves st.game st.game.next_turn.opponent ≠ [] →
      aiMove ab r strength st =
        (Except.ok (some 0),
          { game := { st.game with next_turn := st.game.next_turn.opponent },
            moveHistory := st.moveHistory ++ [0] })) := by
  constructor <;> intro h2
  · rw [aiMove_pass_branch ab r strength st h, if_pos h2]
  · rw [aiMove_pass_branch ab r strength st h, if_neg h2]

/-- Witness for C5: on the empty board the pass ends the game (`none`); in the
position where only White can move, Black's forced pass reports `some 0`. -/
theorem aiMove_forced_pass_spec_witness :
    aiMove chooseOpening chooseNone none emptySession =
      (Except.ok none,
        { game := { emptySession.game with next_turn := emptySession.game.next_turn.opponent },
          moveHistory := emptySession.moveHistory ++ [0] }) ∧
    aiMove chooseOpening chooseNone none blackStuckSession =
      (Except.ok (some 0),
        { game := { blackStuckSession.game with next_turn := blackStuckSession.game.next_turn.opponent },
          moveHistory := blackStuckSession.moveHistory ++ [0] }) :=
  ⟨(aiMove_forced_pass_spec chooseOpening chooseNone none emptySession (by decide)).1 (by decide),
   (aiMove_forced_pass_spec chooseOpening chooseNone none blackStuckSession (by decide)).2 (by decide)⟩

/-- Claim C6: with legal moves available, a present positive strength selects
the alpha-beta strategy at exactly that depth, and zero, negative or absent
strength selects the random strategy; the call reduces to handling that one
strategy's choice. -/
theorem aiMove_strategy_dispatch (ab : Nat → Game → Option Move) (r : Game → Option Move)
    (st : Session) (h : validMoves st.game st.game.next_turn ≠ []) :
    (∀ s : Int, 0 < s → aiMove ab r (some s) st = handleChosen (ab s.toNat st.game) st) ∧
    (∀ s : Int, s ≤ 0 → aiMove ab r (some s) st = handleChosen (r st.game) st) ∧
    aiMove ab r none st = handleChosen (r st.game) st := by
  refine ⟨fun s hs => ?_, fun s hs => ?_, ?_⟩
  · rw [aiMove_eq_handleChosen ab r (some s) st h]
    simp [dispatch, hs]
  · rw [aiMove_eq_handleChosen ab r (some s) st h]
    have hns : ¬ (0 : Int) < s := not_lt.mpr hs
    simp [dispatch, hns]
  · rw [aiMove_eq_handleChosen ab r none st h]
    simp [dispatch]

/-- Witness for C6 at the start position: strength 2 routes to the alpha-beta
parameter at depth 2, strength 0 and absent strength route to the random
parameter. -/
theorem aiMove_strategy_dispatch_witness :
    aiMove chooseOpening chooseNone (some 2) newSession =
      handleChosen (chooseOpening 2 newSession.game) newSession ∧
    aiMove chooseOpening chooseNone (some 0) newSession =
      handleChosen (chooseNone newSession.game) newSession ∧
    aiMove chooseOpening chooseNone none newSession =
      handleChosen (chooseNone newSession.game) newSession :=
  ⟨(aiMove_strategy_dispatch chooseOpening chooseNone newSession (by decide)).1 2 (by decide),
   (aiMove_strategy_dispatch chooseOpening chooseNone newSession (by decide)).2.1 0 (by decide),
   (aiMove_strategy_dispatch chooseOpening chooseNone newSession (by decide)).2.2⟩

/-- Claim C8: when legal moves exist but the dispatched strategy returns no
move, `ai_move` fails hard with an error and the session (game and history)
is exactly what it was. -/
theorem aiMove_none_chosen_errors (ab : Nat → Game → Option Move) (r : Game → Option Move)
    (strength : Option Int) (st : Session)
    (h : validMoves st.game st.game.next_turn ≠ [])
    (hc : dispatch ab r strength st.game = none) :
    aiMove ab r strength st =
      (Except.error "AI failed to choose a move despite available options", st) := by
  rw [aiMove_eq_handleChosen ab r strength st h, hc]
  simp [handleChosen]

/-- Witness for C8: a strategy that returns no move at the start position. -/
theorem aiMove_none_chosen_errors_witness :
    aiMove chooseCorner chooseNone none newSession =
      (Except.error "AI failed to choose a move despite available options", newSession) :=
  aiMove_none_chosen_errors chooseCorner chooseNone none newSession (by decide) (by rfl)

/-- Claim C9: at a terminal position (neither colour can move) every `ai_move`
call still mutates the session — it flips the turn and appends a pass code —
and a second call does so again, toggling the turn back and growing the
history further. -/
theorem aiMove_terminal_still_mutates (ab : Nat → Game → Option Move) (r : Game → Option Move)
    (strength strength2 : Option Int) (st : Session)
    (h1 : validMoves st.game st.game.next_turn = [])
    (h2 : validMoves st.game st.game.next_turn.opponent = []) :
    aiMove ab r strength st =
      (Except.ok none,
        { game := { st.game with next_turn := st.game.next_turn.opponent },
          moveHistory := st.moveHistory ++ [0] }) ∧
    aiMove ab r strength2 (aiMove ab r strength st).2 =
      (Except.ok none,
        { game := { st.game with next_turn := st.game.next_turn.opponent.opponent },
          moveHistory := st.moveHistory ++ [0] ++ [0] }) := by
  have first : aiMove ab r strength st =
      (Except.ok none,
        { game := { st.game with next_turn := st.game.next_turn.opponent },
          moveHistory := st.moveHistory ++ [0] }) := by
    rw [aiMove_pass_branch ab r strength st h1, if_pos h2]
  refine ⟨first, ?_⟩
  rw [first]
  have h1' : validMoves
      ({ game := { st.game with next_turn := st.game.next_turn.opponent },
         moveHistory := st.moveHistory ++ [0] } : Session).game
      ({ game := { st.game with next_turn := st.game.next_turn.opponent },
         moveHistory := st.moveHistory ++ [0] } : Session).game.next_turn = [] := by
    simpa [validMoves_update_turn] using h2
  rw [aiMove_pass_branch ab r strength2 _ h1']
  have h2' : validMoves st.game st.game.next_turn.opponent.opponent = [] := by
    rw [Colour.opponent_opponent]
    exact h1
  simp [validMoves_update_turn, h2']

/-- Witness for C9: two consecutive AI calls on the terminal empty board. -/
theorem aiMove_terminal_still_mutates_witness :
    aiMove chooseOpening chooseNone none emptySession =
      (Except.ok none,
        { game := { emptySession.game with next_turn := emptySession.game.next_turn.opponent },
          moveHistory := emptySession.moveHistory ++ [0] }) ∧
    aiMove chooseOpening chooseNone (some 3) (aiMove chooseOpening chooseNone none emptySession).2 =
      (Except.ok none,
        { game := { emptySession.game with next_turn := emptySession.game.next_turn.opponent.opponent },
          moveHistory := emptySession.moveHistory ++ [0] ++ [0] }) :=
  aiMove_terminal_still_mutates chooseOpening chooseNone none (some 3) emptySession
    (by decide) (by decide)

/-- Claim C10: when legal moves exist and the dispatched strategy returns a
move, `ai_move` applies and records it only if it passes the membership check
against the valid-move list; a move outside that list raises an error with the
session untouched. -/
theorem aiMove_invalid_choice_errors (ab : Nat → Game → Option Move) (r : Game → Option Move)
    (strength : Option Int) (st : Session) (m : Move)
    (h : validMoves st.game st.game.next_turn ≠ [])
    (hc : dispatch ab r strength st.game = some m) :
    (m ∉ validMoves st.game st.game.next_turn →
      aiMove ab r strength st = (Except.error "AI chose an invalid move", st)) ∧
    (m ∈ validMoves st.game st.game.next_turn →
      aiMove ab r strength st =
        (Except.ok (some (moveToU8 (some m))),
          { game := st.game.apply m,
            moveHistory := st.moveHistory ++ [moveToU8 (some m)] })) := by
  constructor <;> intro hm <;>
    rw [aiMove_eq_handleChosen ab r strength st h, hc] <;>
    simp [handleChosen, hm]

/-- Witness for C10 at the start position: the corner-returning strategy is
rejected with an error, the opening-returning strategy is applied and
recorded. -/
theorem aiMove_invalid_choice_errors_witness :
    aiMove chooseCorner chooseNone (some 1) newSession =
      (Except.error "AI chose an invalid move", newSession) ∧
    aiMove chooseOpening chooseNone (some 1) newSession =
      (Except.ok (some (moveToU8 (some { player := Colour.Black, row := 2, col := 3 }))),
        { game := newSession.game.apply { player := Colour.Black, row := 2, col := 3 },
          moveHistory := newSession.moveHistory ++
            [moveToU8 (some { player := Colour.Black, row := 2, col := 3 })] }) :=
  ⟨(aiMove_invalid_choice_errors chooseCorner chooseNone (some 1) newSession
      { player := Colour.Black, row := 0, col := 0 } (by decide) (by rfl)).1 (by decide),
   (aiMove_invalid_choice_errors chooseOpening chooseNone (some 1) newSession
      { player := Colour.Black, row := 2, col := 3 } (by decide) (by rfl)).2 (by decide)⟩
